import Mathlib

/-!
The jaeger-echo package: request span middleware and ad-hoc span starters

A shallow embedding of `jaeger.go`.  The Go code is glue around three external
libraries (echo, opentracing-go, jaeger-client-go), so the embedding is a
state-passing one: a `World` carries the process-wide tracer handle, the
tracer's id counter and the list of calls made so far to the tracer, to spans
and to the logger.  Every function of `jaeger.go` becomes a function on
`World`; a Go handler becomes a `HandlerFunc`, a function that receives the
world and the echo context and gives both back together with its outcome
(a returned `error`, possibly nil, or a panic).
-/

namespace JaegerEcho

/-! ## Values of the libraries -/

/-- A Go `error` value, identified with the message `err.Error()` yields. -/
abbrev GoError := String

/-- A tag value passed to `Span.SetTag`: a string or a `uint16`. -/
inductive TagValue where
  | str (s : String)
  | uint16 (n : Nat)
  deriving DecidableEq, Repr

/-- The trace context of a span (`opentracing.SpanContext`). -/
structure SpanContext where
  traceID : Nat
  spanID : Nat
  deriving DecidableEq, Repr

/-- A span handle (`opentracing.Span`); `Context` is what `span.Context()` yields. -/
structure Span where
  Context : SpanContext
  deriving DecidableEq, Repr

/-- The options a tracer collects before starting a span
(`opentracing.StartSpanOptions`): parent references and initial tags. -/
structure StartSpanOptions where
  References : List SpanContext
  Tags : List (String × TagValue)
  deriving DecidableEq, Repr

/-- An argument of `StartSpan` (`opentracing.StartSpanOption`). -/
inductive StartSpanOption where
  | childOfRef (sc : Option SpanContext)
  | tag (key : String) (value : TagValue)
  deriving DecidableEq, Repr

/-- The `opentracing.ChildOf(sc)` option; `sc` may be nil. -/
def ChildOf (sc : Option SpanContext) : StartSpanOption := .childOfRef sc

/-- The `ext.SpanKindRPCClient` option: the tag `span.kind = client`. -/
def SpanKindRPCClient : StartSpanOption := .tag "span.kind" (.str "client")

/-- The `Apply` method of a start option: a `ChildOf` reference with a nil
context has no effect, a tag is added to the initial tags. -/
def StartSpanOption.Apply : StartSpanOption → StartSpanOptions → StartSpanOptions
  | .childOfRef (some sc), o => { o with References := o.References ++ [sc] }
  | .childOfRef none, o => o
  | .tag k v, o => { o with Tags := o.Tags ++ [(k, v)] }

/-- All options applied in order to the empty option set. -/
def applyOptions (opts : List StartSpanOption) : StartSpanOptions :=
  opts.foldl (fun o opt => opt.Apply o) { References := [], Tags := [] }

/-- A tracing provider (`opentracing.Tracer`), identified by a number. -/
structure Tracer where
  id : Nat
  deriving DecidableEq, Repr

/-- The shutdown handle returned with a tracer (`io.Closer`). -/
structure Closer where
  id : Nat
  deriving DecidableEq, Repr

/-- A call made to the tracer, to a span or to the logger. -/
inductive Event where
  | startSpan (tracer : Tracer) (sp : Span) (operationName : String) (opts : StartSpanOptions)
  | setTag (sp : Span) (key : String) (value : TagValue)
  | finish (sp : Span)
  | logError (msg : String)
  deriving DecidableEq, Repr

/-- The tracer `opentracing.NoopTracer{}`, the global tracer of a process until
`SetGlobalTracer` is called.  The calls made to it are recorded like those made
to any tracer. -/
def NoopTracer : Tracer := { id := 0 }

/-- The process state the code reads and writes: the global tracer handle of
opentracing (`none` is a nil tracer) with its flag `isRegistered`, set once
`SetGlobalTracer` was called, the next id the tracer hands out, and the calls
made so far, oldest first. -/
structure World where
  globalTracer : Option Tracer
  isRegistered : Bool
  nextID : Nat
  log : List Event
  deriving DecidableEq, Repr

/-- The call `opentracing.GlobalTracer()`. -/
def GlobalTracer (w : World) : Option Tracer := w.globalTracer

/-- The call `opentracing.SetGlobalTracer(tracer)`. -/
def SetGlobalTracer (w : World) (tracer : Option Tracer) : World :=
  { w with globalTracer := tracer, isRegistered := true }

/-- The world of a process in which `SetGlobalTracer` was never called: the
global tracer is the no-op tracer, not nil. -/
def initialWorld : World :=
  { globalTracer := some NoopTracer, isRegistered := false, nextID := 0, log := [] }

/-- The call `tracer.StartSpan(operationName, opts...)`: the tracer hands out
a span with a fresh span id, in the trace of its first reference when there is
one and in a new trace otherwise, and the call is recorded. -/
def Tracer.StartSpan (tracer : Tracer) (w : World) (operationName : String)
    (opts : List StartSpanOption) : World × Span :=
  let o := applyOptions opts
  let trace := match o.References.head? with
    | some parent => parent.traceID
    | none => w.nextID
  let sp : Span := { Context := { traceID := trace, spanID := w.nextID } }
  ({ w with nextID := w.nextID + 1,
            log := w.log ++ [Event.startSpan tracer sp operationName o] }, sp)

/-- The call `span.SetTag(key, value)`. -/
def Span.SetTag (sp : Span) (w : World) (key : String) (value : TagValue) : World :=
  { w with log := w.log ++ [Event.setTag sp key value] }

/-- The call `span.Finish()`. -/
def Span.Finish (sp : Span) (w : World) : World :=
  { w with log := w.log ++ [Event.finish sp] }

/-- The logger calls `log.Error(err)` and `log.Errorf(...)`, with the message logged. -/
def logError (w : World) (msg : String) : World :=
  { w with log := w.log ++ [Event.logError msg] }

/-- The Go conversion `uint16(n)` of an `int`: the low 16 bits. -/
def toUint16 (n : Int) : Nat := (n % 65536).toNat

/-- The call `ext.HTTPMethod.Set(span, v)`. -/
def HTTPMethod_Set (sp : Span) (w : World) (v : String) : World :=
  sp.SetTag w "http.method" (.str v)

/-- The call `ext.HTTPUrl.Set(span, v)`. -/
def HTTPUrl_Set (sp : Span) (w : World) (v : String) : World :=
  sp.SetTag w "http.url" (.str v)

/-- The call `ext.HTTPStatusCode.Set(span, v)`, `v` a `uint16`. -/
def HTTPStatusCode_Set (sp : Span) (w : World) (v : Nat) : World :=
  sp.SetTag w "http.status_code" (.uint16 v)

/-! ## Requests, contexts and the echo context -/

/-- A key of a `context.Context`: the key opentracing binds the active span
under, or any other key. -/
inductive CtxKey where
  | activeSpanKey
  | other (name : String)
  deriving DecidableEq, Repr

/-- A value bound in a `context.Context`. -/
inductive CtxValue where
  | span (sp : Span)
  | data (d : String)
  deriving DecidableEq, Repr

/-- A `context.Context`: its bindings, the innermost (latest) first. -/
abbrev Context := List (CtxKey × CtxValue)

/-- The method `ctx.Value(key)`: the innermost binding of `key`. -/
def Context.Value (ctx : Context) (key : CtxKey) : Option CtxValue :=
  (ctx.find? (fun b => b.1 == key)).map (fun b => b.2)

/-- The call `opentracing.SpanFromContext(ctx)`: the span bound under the
active span key, nil when there is none. -/
def SpanFromContext (ctx : Context) : Option Span :=
  match ctx.Value .activeSpanKey with
  | some (.span sp) => some sp
  | _ => none

/-- The call `opentracing.ContextWithSpan(ctx, span)`: a new context with one
more binding, layered over `ctx`. -/
def ContextWithSpan (ctx : Context) (sp : Span) : Context :=
  (CtxKey.activeSpanKey, CtxValue.span sp) :: ctx

/-- The fields of `url.URL` the code reads; `EscapedPath` holds what the
method `u.EscapedPath()` yields, the percent-encoded form of `Path`. -/
structure URL where
  Scheme : String
  Opaque : String
  Path : String
  EscapedPath : String
  ForceQuery : Bool
  RawQuery : String
  deriving DecidableEq, Repr

/-- The method `u.RequestURI()` of `net/url`: the encoded path (or the opaque
part), followed by `?query` when there is a query. -/
def URL.RequestURI (u : URL) : String :=
  let result :=
    if u.Opaque = "" then
      (if u.EscapedPath = "" then "/" else u.EscapedPath)
    else if u.Opaque.startsWith "//" then u.Scheme ++ ":" ++ u.Opaque
    else u.Opaque
  if u.ForceQuery || u.RawQuery ≠ "" then result ++ "?" ++ u.RawQuery else result

/-- An incoming `http.Request`: method, URL, headers, body and its context. -/
structure Request where
  Method : String
  URL : URL
  Header : List (String × String)
  Body : String
  ctx : Context
  deriving DecidableEq, Repr

/-- The method `req.Context()`. -/
def Request.Context (req : Request) : JaegerEcho.Context := req.ctx

/-- The method `req.WithContext(ctx)`: a copy of the request with its context
replaced. -/
def Request.WithContext (req : Request) (ctx : JaegerEcho.Context) : Request :=
  { req with ctx := ctx }

/-- The `echo.Response` of a request: the status it holds and whether it was sent. -/
structure Response where
  Status : Int
  Size : Int
  Committed : Bool
  deriving DecidableEq, Repr

/-- The `echo.Context` of a request: the request and the response it holds. -/
structure EchoContext where
  request : Request
  response : Response
  deriving DecidableEq, Repr

/-- The method `c.Request()`. -/
def EchoContext.Request (c : EchoContext) : JaegerEcho.Request := c.request

/-- The method `c.SetRequest(r)`. -/
def EchoContext.SetRequest (c : EchoContext) (r : JaegerEcho.Request) : EchoContext :=
  { c with request := r }

/-- The method `c.Response()`. -/
def EchoContext.Response (c : EchoContext) : JaegerEcho.Response := c.response

/-- How a Go call ends: it returns an `error` (nil is `none`) or it panics. -/
inductive Outcome where
  | returned (err : Option GoError)
  | panicked (v : String)
  deriving DecidableEq, Repr

/-- An `echo.HandlerFunc`: run on a world and an echo context, it leaves both
changed as it likes and ends with an outcome. -/
abbrev HandlerFunc := World → EchoContext → World × EchoContext × Outcome

/-! ## The code of `jaeger.go` -/

/-- The middleware `JaegerTracer()`, an `echo.MiddlewareFunc`.  The deferred
`span.Finish()` runs on both ways out of the function: after `return nil`, and
while a panic of `next` unwinds. -/
def JaegerTracer (next : HandlerFunc) : HandlerFunc := fun w c =>
  match GlobalTracer w with
  | none => next w c
  | some tracer =>
    let req := c.Request
    let ctx := req.Context
    let rootCtx : Option SpanContext :=
      match SpanFromContext ctx with
      | some rootSpan => some rootSpan.Context
      | none => none
    let (w, span) := tracer.StartSpan w req.URL.Path [ChildOf rootCtx, SpanKindRPCClient]
    let w := HTTPMethod_Set span w req.Method
    let w := HTTPUrl_Set span w req.URL.RequestURI
    let ctx := ContextWithSpan ctx span
    let c := c.SetRequest (req.WithContext ctx)
    match next w c with
    | (w, c, .panicked v) => (span.Finish w, c, .panicked v)
    | (w, c, .returned err) =>
      let w := match err with
        | some e => logError w e
        | none => w
      let res := c.Response
      let w := HTTPStatusCode_Set span w (toUint16 res.Status)
      (span.Finish w, c, .returned none)

/-- The `jaegerCfg.SamplerConfig` fields the code sets (`type` is the Go field `Type`). -/
structure SamplerConfig where
  type : String
  Param : Rat
  deriving DecidableEq, Repr

/-- The `jaegerCfg.ReporterConfig` fields the code sets. -/
structure ReporterConfig where
  LogSpans : Bool
  CollectorEndpoint : String
  deriving DecidableEq, Repr

/-- The `jaegerCfg.Configuration` the code builds. -/
structure Configuration where
  ServiceName : String
  Sampler : SamplerConfig
  Reporter : ReporterConfig
  deriving DecidableEq, Repr

/-- The constant `jaeger.SamplerTypeConst`. -/
def SamplerTypeConst : String := "const"

/-- A `jaegerCfg.Option`, kept abstract. -/
abbrev CfgOption := String

/-- The constructor `cfg.NewTracer(options...)` of the jaeger client: what it
returns for a configuration and an option list. -/
abbrev NewTracerFunc :=
  Configuration → List CfgOption → Option Tracer × Option Closer × Option GoError

/-- The function `NewJaegerTracer`; `NewTracer` is the client's constructor. -/
def NewJaegerTracer (NewTracer : NewTracerFunc) (w : World) (serviceName endpoint : String)
    (options : List CfgOption) : World × (Option Tracer × Option Closer × Option GoError) :=
  let cfg : Configuration :=
    { ServiceName := serviceName,
      Sampler := { type := SamplerTypeConst, Param := 1 },
      Reporter := { LogSpans := false,
                    CollectorEndpoint := "http://localhost:14268/api/traces" } }
  let cfg : Configuration :=
    if endpoint ≠ "" then
      { cfg with Reporter := { cfg.Reporter with CollectorEndpoint := endpoint } }
    else cfg
  match NewTracer cfg options with
  | (tracer, closer, err) =>
    let w := match err with
      | some e => logError w ("create tracer error: " ++ e)
      | none => w
    let w := SetGlobalTracer w tracer
    (w, (tracer, closer, err))

/-- The function `StartSpanFromEchoContext`. -/
def StartSpanFromEchoContext (w : World) (ctx : EchoContext) (operationName : String) :
    World × Option Span :=
  match GlobalTracer w with
  | none => (w, none)
  | some tracer =>
    let parentCtx : Option SpanContext :=
      match SpanFromContext ctx.Request.Context with
      | some parentSpan => some parentSpan.Context
      | none => none
    let (w, span) := tracer.StartSpan w operationName [ChildOf parentCtx, SpanKindRPCClient]
    let w := if parentCtx = none then span.SetTag w "parent.context" (.str "nil") else w
    (w, some span)

/-- The function `StartSpanFromContext`. -/
def StartSpanFromContext (w : World) (ctx : Option SpanContext) (operationName : String) :
    World × Option Span :=
  match GlobalTracer w with
  | none => (w, none)
  | some tracer =>
    let (w, span) := tracer.StartSpan w operationName [ChildOf ctx, SpanKindRPCClient]
    let w := if ctx = none then span.SetTag w "parent.context" (.str "nil") else w
    (w, some span)

/-! ## Observations used to state the properties -/

/-- Whether a tracer has been registered as the global tracer: `SetGlobalTracer`
was called, with a tracer that is not nil. -/
def tracerRegistered (w : World) : Bool :=
  w.isRegistered && w.globalTracer.isSome

/-- The parent the code resolves from a request context: the trace context of
the span bound in it, or none. -/
def parentOf (ctx : Context) : Option SpanContext :=
  (SpanFromContext ctx).map (fun p => p.Context)

/-- The options of a client span with the given parent, as the tracer receives them. -/
def clientOptions (parent : Option SpanContext) : StartSpanOptions :=
  { References := parent.toList, Tags := [("span.kind", TagValue.str "client")] }

/-- The span the tracer hands out in world `w` for the given parent. -/
def freshSpan (w : World) (parent : Option SpanContext) : Span :=
  { Context :=
      { traceID := match parent with
          | some p => p.traceID
          | none => w.nextID,
        spanID := w.nextID } }

/-- The span the middleware starts for the request of `c` in world `w`. -/
def requestSpan (w : World) (c : EchoContext) : Span :=
  freshSpan w (parentOf c.request.ctx)

/-- The calls the middleware makes before it invokes the downstream handler. -/
def eventsBeforeNext (t : Tracer) (w : World) (c : EchoContext) : List Event :=
  [ Event.startSpan t (requestSpan w c) c.request.URL.Path
      (clientOptions (parentOf c.request.ctx)),
    Event.setTag (requestSpan w c) "http.method" (.str c.request.Method),
    Event.setTag (requestSpan w c) "http.url" (.str c.request.URL.RequestURI) ]

/-- The world the middleware hands to the downstream handler. -/
def worldAtNext (t : Tracer) (w : World) (c : EchoContext) : World :=
  { globalTracer := w.globalTracer, isRegistered := w.isRegistered, nextID := w.nextID + 1,
    log := w.log ++ eventsBeforeNext t w c }

/-- The echo context the middleware hands to the downstream handler. -/
def contextAtNext (w : World) (c : EchoContext) : EchoContext :=
  { request :=
      { Method := c.request.Method, URL := c.request.URL, Header := c.request.Header,
        Body := c.request.Body,
        ctx := (CtxKey.activeSpanKey, CtxValue.span (requestSpan w c)) :: c.request.ctx },
    response := c.response }

/-- The calls the middleware makes once the downstream handler has ended with
outcome `out`, leaving the response status `status`. -/
def eventsAfterNext (sp : Span) (out : Outcome) (status : Int) : List Event :=
  match out with
  | .panicked _ => [Event.finish sp]
  | .returned (some e) =>
    [Event.logError e, Event.setTag sp "http.status_code" (.uint16 (toUint16 status)),
     Event.finish sp]
  | .returned none =>
    [Event.setTag sp "http.status_code" (.uint16 (toUint16 status)), Event.finish sp]

/-- Whether an event is a `StartSpan` call. -/
def Event.isStartSpan : Event → Bool
  | .startSpan _ _ _ _ => true
  | _ => false

/-- Whether an event is a `Finish` call. -/
def Event.isFinish : Event → Bool
  | .finish _ => true
  | _ => false

/-- Whether an event is a `SetTag` call. -/
def Event.isSetTag : Event → Bool
  | .setTag _ _ _ => true
  | _ => false

/-- The tags a span carries when it is finished, read off a list of calls:
the initial tags of its `StartSpan` call, then the tags set on it before its
first `Finish`, in the order they were set. -/
def tagsAtFinish (sp : Span) : List Event → List (String × TagValue)
  | [] => []
  | .startSpan _ s _ o :: evs =>
    if s = sp then o.Tags ++ tagsAtFinish sp evs else tagsAtFinish sp evs
  | .setTag s k v :: evs =>
    if s = sp then (k, v) :: tagsAtFinish sp evs else tagsAtFinish sp evs
  | .finish s :: evs => if s = sp then [] else tagsAtFinish sp evs
  | .logError _ :: evs => tagsAtFinish sp evs

/-- The value a tag list holds for a key: the last one set. -/
def tagValue (tags : List (String × TagValue)) (key : String) : Option TagValue :=
  (tags.reverse.find? (fun kv => kv.1 == key)).map (fun kv => kv.2)

/-! ## Sample inputs -/

/-- A request `GET /orders/42` with no span in its context. -/
def sampleRequest : Request :=
  { Method := "GET",
    URL := { Scheme := "", Opaque := "", Path := "/orders/42",
             EscapedPath := "/orders/42", ForceQuery := false, RawQuery := "" },
    Header := [("Accept", "*/*")], Body := "",
    ctx := [(CtxKey.other "requestID", CtxValue.data "r-1")] }

/-- An echo context holding `sampleRequest` and a fresh response. -/
def sampleContext : EchoContext :=
  { request := sampleRequest, response := { Status := 0, Size := 0, Committed := false } }

/-- A span started earlier, in trace 3 with span id 7. -/
def parentSpan : Span := { Context := { traceID := 3, spanID := 7 } }

/-- An echo context whose request context already holds `parentSpan`. -/
def childContext : EchoContext :=
  { sampleContext with
    request := { sampleRequest with ctx := ContextWithSpan sampleRequest.ctx parentSpan } }

/-- A world with a registered tracer, nothing logged yet. -/
def tracedWorld : World :=
  { globalTracer := some { id := 1 }, isRegistered := true, nextID := 10, log := [] }

/-- A world whose global tracer is nil, as after `SetGlobalTracer(nil)`. -/
def untracedWorld : World :=
  { globalTracer := none, isRegistered := true, nextID := 10, log := [] }

/-- A handler that writes the given status and returns nil. -/
def statusHandler (status : Int) : HandlerFunc := fun w c =>
  (w, { c with response := { Status := status, Size := 2, Committed := true } },
   Outcome.returned none)

/-- A handler that fails with the error `boom` after writing status 500. -/
def failingHandler : HandlerFunc := fun w c =>
  (w, { c with response := { Status := 500, Size := 0, Committed := true } },
   Outcome.returned (some "boom"))

/-- A handler that panics. -/
def panickingHandler : HandlerFunc := fun w c => (w, c, Outcome.panicked "nil map")

/-- A constructor that fails on every configuration. -/
def failingConstructor : NewTracerFunc := fun _ _ => (none, none, some "no sender")

/-- An echo context holding the request `GET /orders/42?expand=items`. -/
def queryContext : EchoContext :=
  { sampleContext with
    request :=
      { sampleRequest with
        URL := { Scheme := "", Opaque := "", Path := "/orders/42",
                 EscapedPath := "/orders/42", ForceQuery := false,
                 RawQuery := "expand=items" } } }

/-- A handler that makes calls of its own before it returns: it sets a tag on
the span it finds in the request context, then writes status 404. -/
def taggingHandler : HandlerFunc := fun w c =>
  match SpanFromContext c.Request.Context with
  | some sp =>
    (sp.SetTag w "orders.found" (.str "no"),
     { c with response := { Status := 404, Size := 0, Committed := true } },
     Outcome.returned none)
  | none =>
    (w, { c with response := { Status := 404, Size := 0, Committed := true } },
     Outcome.returned none)

/-! ## Shared lemmas -/

/-- A context in which the innermost binding of the active span key holds the
span `p`: `SpanFromContext` finds `p`. -/
theorem SpanFromContext_innermost (front : Context) (p : Span) (rest : Context)
    (hfront : ∀ b ∈ front, b.1 ≠ CtxKey.activeSpanKey) :
    SpanFromContext (front ++ (CtxKey.activeSpanKey, CtxValue.span p) :: rest) = some p := by
  induction front with
  | nil => simp [SpanFromContext, Context.Value]
  | cons b front ih =>
    have hb : (b.1 == CtxKey.activeSpanKey) = false := by
      simpa using hfront b (List.mem_cons_self _ _)
    have ih := ih (fun x hx => hfront x (List.mem_cons_of_mem _ hx))
    simp only [SpanFromContext, Context.Value, List.cons_append, List.find?_cons, hb] at ih ⊢
    exact ih

/-- A context with no binding of the active span key: `SpanFromContext` finds
no span. -/
theorem SpanFromContext_unbound (ctx : Context)
    (hctx : ∀ b ∈ ctx, b.1 ≠ CtxKey.activeSpanKey) :
    SpanFromContext ctx = none := by
  induction ctx with
  | nil => rfl
  | cons b ctx ih =>
    have hb : (b.1 == CtxKey.activeSpanKey) = false := by
      simpa using hctx b (List.mem_cons_self _ _)
    have ih := ih (fun x hx => hctx x (List.mem_cons_of_mem _ hx))
    simp only [SpanFromContext, Context.Value, List.find?_cons, hb] at ih ⊢
    exact ih

/-- The tags at finish of a list of calls followed by another, when the first
list does not finish the span. -/
theorem tagsAtFinish_append (sp : Span) (a b : List Event)
    (ha : Event.finish sp ∉ a) :
    tagsAtFinish sp (a ++ b) = tagsAtFinish sp a ++ tagsAtFinish sp b := by
  induction a with
  | nil => simp [tagsAtFinish]
  | cons e a ih =>
    have ih := ih (fun hmem => ha (List.mem_cons_of_mem _ hmem))
    cases e with
    | startSpan t s n o =>
      by_cases hs : s = sp <;> simp [tagsAtFinish, hs, ih]
    | setTag s k v =>
      by_cases hs : s = sp <;> simp [tagsAtFinish, hs, ih]
    | finish s =>
      have hs : s ≠ sp := fun hs => ha (by simp [hs])
      simp [tagsAtFinish, hs, ih]
    | logError m => simp [tagsAtFinish, ih]

/-- The value of the key set last in a tag list. -/
theorem tagValue_append_last (tags : List (String × TagValue)) (k : String) (v : TagValue) :
    tagValue (tags ++ [(k, v)]) k = some v := by
  simp [tagValue]

/-- The two options of the code, applied: the parent reference when there is one, and the client kind tag. -/
theorem applyOptions_client (parent : Option SpanContext) :
    applyOptions [ChildOf parent, SpanKindRPCClient] = clientOptions parent := by
  cases parent <;> rfl

/-- What `StartSpan` with the two options of the code does to the world and returns. -/
theorem startSpan_client (t : Tracer) (w : World) (name : String)
    (parent : Option SpanContext) :
    t.StartSpan w name [ChildOf parent, SpanKindRPCClient] =
      ({ globalTracer := w.globalTracer, isRegistered := w.isRegistered,
         nextID := w.nextID + 1,
         log := w.log ++ [Event.startSpan t (freshSpan w parent) name (clientOptions parent)] },
       freshSpan w parent) := by
  unfold Tracer.StartSpan
  rw [applyOptions_client]
  cases parent <;> rfl

/-- The parent resolution of the code is `parentOf`. -/
theorem parentOf_eq (ctx : Context) :
    (match SpanFromContext ctx with
      | some rootSpan => some rootSpan.Context
      | none => none) = parentOf ctx := by
  unfold parentOf
  cases SpanFromContext ctx <;> rfl

/-- The middleware with a tracer present: the downstream handler runs in
`worldAtNext` on `contextAtNext`, and the calls of `eventsAfterNext` follow. -/
theorem JaegerTracer_present (next : HandlerFunc) (w : World) (c : EchoContext) (t : Tracer)
    (h : GlobalTracer w = some t) :
    JaegerTracer next w c =
      (let r := next (worldAtNext t w c) (contextAtNext w c)
       ({ r.1 with log := r.1.log ++
            eventsAfterNext (requestSpan w c) r.2.2 r.2.1.response.Status },
        r.2.1,
        match r.2.2 with
        | .panicked v => Outcome.panicked v
        | .returned _ => Outcome.returned none)) := by
  unfold JaegerTracer
  simp only [h]
  simp only [EchoContext.Request, Request.Context, parentOf_eq, startSpan_client]
  have hw : HTTPUrl_Set (freshSpan w (parentOf c.request.ctx))
      (HTTPMethod_Set (freshSpan w (parentOf c.request.ctx))
        { globalTracer := w.globalTracer, isRegistered := w.isRegistered,
          nextID := w.nextID + 1,
          log := w.log ++ [Event.startSpan t (freshSpan w (parentOf c.request.ctx))
            c.request.URL.Path (clientOptions (parentOf c.request.ctx))] }
        c.request.Method) c.request.URL.RequestURI = worldAtNext t w c := by
    simp [HTTPUrl_Set, HTTPMethod_Set, Span.SetTag, worldAtNext, eventsBeforeNext, requestSpan]
  have hc : c.SetRequest (c.request.WithContext
      (ContextWithSpan c.request.ctx (freshSpan w (parentOf c.request.ctx)))) =
      contextAtNext w c := by
    rfl
  rw [hw, hc]
  rcases hn : next (worldAtNext t w c) (contextAtNext w c) with ⟨w1, c1, out⟩
  cases out with
  | panicked v => simp [Span.Finish, eventsAfterNext, requestSpan]
  | returned err =>
    cases err with
    | none =>
      simp [Span.Finish, eventsAfterNext, HTTPStatusCode_Set, Span.SetTag,
        EchoContext.Response, requestSpan]
    | some e =>
      simp [Span.Finish, eventsAfterNext, HTTPStatusCode_Set, Span.SetTag,
        EchoContext.Response, logError, requestSpan]

/-! ## The middleware without a tracer -/

/-- C1: with a nil global tracer the handler `JaegerTracer next` behaves as
`next` itself on every world and echo context: `next` runs once on the world
and on `c` as they came in, what it leaves (world, echo context, returned
error or nil, or panic) is the result, and the middleware adds no call to the
tracer, to a span or to the logger and does not replace the request. -/
theorem JaegerTracer_nil_tracer (next : HandlerFunc) (w : World) (c : EchoContext)
    (h : GlobalTracer w = none) :
    JaegerTracer next w c = next w c := by
  unfold JaegerTracer
  simp only [h]

/-- The no-tracer case on a handler that fails: the error comes back as it is. -/
theorem JaegerTracer_nil_tracer_witness :
    GlobalTracer untracedWorld = none ∧
      JaegerTracer failingHandler untracedWorld childContext =
        failingHandler untracedWorld childContext :=
  ⟨rfl, JaegerTracer_nil_tracer failingHandler untracedWorld childContext rfl⟩

/-! ## The middleware with a tracer -/

/-- C2: with a tracer present, whenever the downstream handler returns (nil or
an error) the wrapped handler returns nil.  The calls it makes after the
handler ended are: `log.Error(e)` when the handler returned the error `e`,
then the status tag, then `Finish`; among all calls of the middleware the
error is logged exactly once, and nothing is logged when there is no error. -/
theorem JaegerTracer_absorbs_error (next : HandlerFunc) (w : World) (c : EchoContext)
    (t : Tracer) (err : Option GoError)
    (h : GlobalTracer w = some t)
    (hr : (next (worldAtNext t w c) (contextAtNext w c)).2.2 = Outcome.returned err) :
    ∃ post : List Event,
      (JaegerTracer next w c).2.2 = Outcome.returned none ∧
      (JaegerTracer next w c).1.log =
        (next (worldAtNext t w c) (contextAtNext w c)).1.log ++ post ∧
      post = err.toList.map Event.logError ++
            [Event.setTag (requestSpan w c) "http.status_code"
               (.uint16 (toUint16
                 (next (worldAtNext t w c) (contextAtNext w c)).2.1.response.Status)),
             Event.finish (requestSpan w c)] ∧
      (∀ e, err = some e →
        (eventsBeforeNext t w c ++ post).count (Event.logError e) = 1) ∧
      (err = none → ∀ m, Event.logError m ∉ eventsBeforeNext t w c ++ post) := by
  rw [JaegerTracer_present next w c t h]
  rcases hn : next (worldAtNext t w c) (contextAtNext w c) with ⟨w1, c1, out⟩
  rw [hn] at hr
  simp only at hr
  subst hr
  cases err with
  | none =>
    refine ⟨_, rfl, rfl, rfl, ?_, ?_⟩
    · intro e he
      cases he
    · intro _ m
      simp [eventsBeforeNext, eventsAfterNext]
  | some e0 =>
    refine ⟨_, rfl, rfl, rfl, ?_, ?_⟩
    · intro e he
      cases he
      simp [eventsBeforeNext, eventsAfterNext, List.count_cons]
    · intro he
      cases he

/-- The error case on a handler that fails with `boom` under a parent span. -/
theorem JaegerTracer_absorbs_error_witness :
    GlobalTracer tracedWorld = some { id := 1 } ∧
    (failingHandler (worldAtNext { id := 1 } tracedWorld childContext)
        (contextAtNext tracedWorld childContext)).2.2 = Outcome.returned (some "boom") ∧
    ∃ post : List Event,
      (JaegerTracer failingHandler tracedWorld childContext).2.2 = Outcome.returned none ∧
      (JaegerTracer failingHandler tracedWorld childContext).1.log =
        (failingHandler (worldAtNext { id := 1 } tracedWorld childContext)
          (contextAtNext tracedWorld childContext)).1.log ++ post ∧
      post = (some "boom" : Option GoError).toList.map Event.logError ++
            [Event.setTag (requestSpan tracedWorld childContext) "http.status_code"
               (.uint16 (toUint16
                 (failingHandler (worldAtNext { id := 1 } tracedWorld childContext)
                   (contextAtNext tracedWorld childContext)).2.1.response.Status)),
             Event.finish (requestSpan tracedWorld childContext)] ∧
      (∀ e, (some "boom" : Option GoError) = some e →
        (eventsBeforeNext { id := 1 } tracedWorld childContext ++ post).count
          (Event.logError e) = 1) ∧
      ((some "boom" : Option GoError) = none →
        ∀ m, Event.logError m ∉ eventsBeforeNext { id := 1 } tracedWorld childContext ++ post) :=
  ⟨rfl, rfl,
    JaegerTracer_absorbs_error failingHandler tracedWorld childContext { id := 1 }
      (some "boom") rfl rfl⟩

/-- C3: with a tracer present and whatever the downstream handler does
(returns nil, returns an error, panics), the calls of the middleware are those
of `eventsBeforeNext`, made before the handler runs, and a list `post` appended
to the log as the handler left it.  Among them there is exactly one
`StartSpan`, the one of the request span; no `Finish` comes before the handler
runs; `post` holds exactly one `Finish`, of the request span, and it is the
last call of `post`, so it follows the end of the handler and every tag. -/
theorem JaegerTracer_finish_once (next : HandlerFunc) (w : World) (c : EchoContext)
    (t : Tracer) (h : GlobalTracer w = some t) :
    ∃ post : List Event,
      (worldAtNext t w c).log = w.log ++ eventsBeforeNext t w c ∧
      (JaegerTracer next w c).1.log =
        (next (worldAtNext t w c) (contextAtNext w c)).1.log ++ post ∧
      (eventsBeforeNext t w c ++ post).filter Event.isStartSpan =
        [Event.startSpan t (requestSpan w c) c.request.URL.Path
          (clientOptions (parentOf c.request.ctx))] ∧
      (eventsBeforeNext t w c).filter Event.isFinish = [] ∧
      post.filter Event.isFinish = [Event.finish (requestSpan w c)] ∧
      post.getLast? = some (Event.finish (requestSpan w c)) := by
  rw [JaegerTracer_present next w c t h]
  rcases hn : next (worldAtNext t w c) (contextAtNext w c) with ⟨w1, c1, out⟩
  refine ⟨eventsAfterNext (requestSpan w c) out c1.response.Status, rfl, rfl, ?_, ?_, ?_, ?_⟩
  · rcases out with ⟨_ | e⟩ | v <;>
      simp [eventsBeforeNext, eventsAfterNext, Event.isStartSpan, List.filter]
  · simp [eventsBeforeNext, Event.isFinish, List.filter]
  · rcases out with ⟨_ | e⟩ | v <;> simp [eventsAfterNext, Event.isFinish, List.filter]
  · rcases out with ⟨_ | e⟩ | v <;> simp [eventsAfterNext]

/-- The lifecycle property on a handler that panics. -/
theorem JaegerTracer_finish_once_witness :
    GlobalTracer tracedWorld = some { id := 1 } ∧
    ∃ post : List Event,
      (worldAtNext { id := 1 } tracedWorld childContext).log =
        tracedWorld.log ++ eventsBeforeNext { id := 1 } tracedWorld childContext ∧
      (JaegerTracer panickingHandler tracedWorld childContext).1.log =
        (panickingHandler (worldAtNext { id := 1 } tracedWorld childContext)
          (contextAtNext tracedWorld childContext)).1.log ++ post ∧
      (eventsBeforeNext { id := 1 } tracedWorld childContext ++ post).filter
          Event.isStartSpan =
        [Event.startSpan { id := 1 } (requestSpan tracedWorld childContext)
          childContext.request.URL.Path (clientOptions (parentOf childContext.request.ctx))] ∧
      (eventsBeforeNext { id := 1 } tracedWorld childContext).filter Event.isFinish = [] ∧
      post.filter Event.isFinish = [Event.finish (requestSpan tracedWorld childContext)] ∧
      post.getLast? = some (Event.finish (requestSpan tracedWorld childContext)) :=
  ⟨rfl, JaegerTracer_finish_once panickingHandler tracedWorld childContext { id := 1 } rfl⟩

/-- C4, as stated, fails: a handler that leaves the response status 70000 gets
a span whose status tag is 4464, the low 16 bits of 70000. -/
theorem JaegerTracer_status_tag_truncated :
    GlobalTracer tracedWorld = some { id := 1 } ∧
    (JaegerTracer (statusHandler 70000) tracedWorld sampleContext).2.2 =
      Outcome.returned none ∧
    (JaegerTracer (statusHandler 70000) tracedWorld sampleContext).2.1.response.Status =
      70000 ∧
    tagValue
      (tagsAtFinish (requestSpan tracedWorld sampleContext)
        (JaegerTracer (statusHandler 70000) tracedWorld sampleContext).1.log)
      "http.status_code" = some (TagValue.uint16 4464) ∧
    ((4464 : Nat) : Int) ≠ 70000 := by
  decide

/-- C4, amended: with a tracer present and a downstream handler that returns
(nil or an error), the calls of the middleware give the request span, when it
is finished, the tags `span.kind = client`, `http.method` = the request method,
`http.url` = the full request URI of the URL (the encoded path, `/` when it is
empty, then `?` and the query when there is one), and `http.status_code` = the
status the response holds after the handler, converted to `uint16`: its value
modulo 65536, which is the status itself when it lies in 0..65535.  The method
and URL tags are set before the handler runs and no status tag is; the status
tag is the only tag set after it.  On the log itself: when the handler only
adds calls `hev` to the log and does not finish the request span, the calls
made since the wrapped handler was entered are those before, `hev`, and those
after, and the request span is finished with the tags above, those the handler
set on it in between, and the status tag last. -/
theorem JaegerTracer_tags (next : HandlerFunc) (w : World) (c : EchoContext)
    (t : Tracer) (err : Option GoError)
    (h : GlobalTracer w = some t)
    (hr : (next (worldAtNext t w c) (contextAtNext w c)).2.2 = Outcome.returned err) :
    ∃ post : List Event,
      (worldAtNext t w c).log = w.log ++ eventsBeforeNext t w c ∧
      (JaegerTracer next w c).1.log =
        (next (worldAtNext t w c) (contextAtNext w c)).1.log ++ post ∧
      (eventsBeforeNext t w c).filter Event.isSetTag =
        [Event.setTag (requestSpan w c) "http.method" (.str c.request.Method),
         Event.setTag (requestSpan w c) "http.url" (.str c.request.URL.RequestURI)] ∧
      post.filter Event.isSetTag =
        [Event.setTag (requestSpan w c) "http.status_code"
          (.uint16 (toUint16
            (next (worldAtNext t w c) (contextAtNext w c)).2.1.response.Status))] ∧
      tagsAtFinish (requestSpan w c) (eventsBeforeNext t w c ++ post) =
        [("span.kind", TagValue.str "client"),
         ("http.method", TagValue.str c.request.Method),
         ("http.url", TagValue.str c.request.URL.RequestURI),
         ("http.status_code", TagValue.uint16 (toUint16
            (next (worldAtNext t w c) (contextAtNext w c)).2.1.response.Status))] ∧
      ((toUint16 (next (worldAtNext t w c) (contextAtNext w c)).2.1.response.Status : Nat)
          : Int) =
        (next (worldAtNext t w c) (contextAtNext w c)).2.1.response.Status % 65536 ∧
      (0 ≤ (next (worldAtNext t w c) (contextAtNext w c)).2.1.response.Status →
        (next (worldAtNext t w c) (contextAtNext w c)).2.1.response.Status < 65536 →
        ((toUint16 (next (worldAtNext t w c) (contextAtNext w c)).2.1.response.Status : Nat)
          : Int) =
          (next (worldAtNext t w c) (contextAtNext w c)).2.1.response.Status) ∧
      (c.request.URL.Opaque = "" →
        c.request.URL.RequestURI =
          (if c.request.URL.EscapedPath = "" then "/" else c.request.URL.EscapedPath) ++
            (if c.request.URL.ForceQuery = true ∨ c.request.URL.RawQuery ≠ "" then
              "?" ++ c.request.URL.RawQuery
            else "")) ∧
      (∀ hev : List Event,
        (next (worldAtNext t w c) (contextAtNext w c)).1.log =
          (worldAtNext t w c).log ++ hev →
        Event.finish (requestSpan w c) ∉ hev →
        (JaegerTracer next w c).1.log = w.log ++ (eventsBeforeNext t w c ++ hev ++ post) ∧
        tagsAtFinish (requestSpan w c) (eventsBeforeNext t w c ++ hev ++ post) =
          [("span.kind", TagValue.str "client"),
           ("http.method", TagValue.str c.request.Method),
           ("http.url", TagValue.str c.request.URL.RequestURI)] ++
          tagsAtFinish (requestSpan w c) hev ++
          [("http.status_code", TagValue.uint16 (toUint16
            (next (worldAtNext t w c) (contextAtNext w c)).2.1.response.Status))] ∧
        tagValue (tagsAtFinish (requestSpan w c) (eventsBeforeNext t w c ++ hev ++ post))
            "http.status_code" =
          some (TagValue.uint16 (toUint16
            (next (worldAtNext t w c) (contextAtNext w c)).2.1.response.Status))) := by
  rw [JaegerTracer_present next w c t h]
  rcases hn : next (worldAtNext t w c) (contextAtNext w c) with ⟨w1, c1, out⟩
  rw [hn] at hr
  simp only at hr
  subst hr
  have hmod : ((toUint16 c1.response.Status : Nat) : Int) = c1.response.Status % 65536 := by
    unfold toUint16
    exact Int.toNat_of_nonneg (Int.emod_nonneg _ (by decide))
  have hpre : tagsAtFinish (requestSpan w c) (eventsBeforeNext t w c) =
      [("span.kind", TagValue.str "client"),
       ("http.method", TagValue.str c.request.Method),
       ("http.url", TagValue.str c.request.URL.RequestURI)] := by
    simp [eventsBeforeNext, tagsAtFinish, clientOptions]
  have hpreFinish : Event.finish (requestSpan w c) ∉ eventsBeforeNext t w c := by
    simp [eventsBeforeNext]
  have hpost : tagsAtFinish (requestSpan w c)
      (eventsAfterNext (requestSpan w c) (Outcome.returned err) c1.response.Status) =
      [("http.status_code", TagValue.uint16 (toUint16 c1.response.Status))] := by
    cases err <;> simp [eventsAfterNext, tagsAtFinish]
  refine ⟨eventsAfterNext (requestSpan w c) (Outcome.returned err) c1.response.Status,
    rfl, rfl, ?_, ?_, ?_, hmod, ?_, ?_, ?_⟩
  · simp [eventsBeforeNext, Event.isSetTag, List.filter]
  · cases err <;> simp [eventsAfterNext, Event.isSetTag, List.filter]
  · rw [tagsAtFinish_append _ _ _ hpreFinish, hpre, hpost]
    rfl
  · intro h0 h1
    simp only at hmod ⊢
    rw [hmod]
    exact Int.emod_eq_of_lt h0 h1
  · intro hop
    by_cases hq : c.request.URL.ForceQuery = true ∨ c.request.URL.RawQuery ≠ ""
    · have hq2 : (c.request.URL.ForceQuery || decide (c.request.URL.RawQuery ≠ "")) = true := by
        simpa using hq
      simp only [URL.RequestURI, hop, hq, hq2, if_true, String.append_assoc]
    · have hq2 : (c.request.URL.ForceQuery || decide (c.request.URL.RawQuery ≠ "")) = false := by
        simpa using hq
      simp [URL.RequestURI, hop, hq, hq2]
  · intro hev hlog hfin
    simp only at hlog ⊢
    have hfin2 : Event.finish (requestSpan w c) ∉ eventsBeforeNext t w c ++ hev := by
      intro hmem
      rcases List.mem_append.mp hmem with hm | hm
      · exact hpreFinish hm
      · exact hfin hm
    have htags : tagsAtFinish (requestSpan w c) (eventsBeforeNext t w c ++ hev ++
        eventsAfterNext (requestSpan w c) (Outcome.returned err) c1.response.Status) =
        [("span.kind", TagValue.str "client"),
         ("http.method", TagValue.str c.request.Method),
         ("http.url", TagValue.str c.request.URL.RequestURI)] ++
        tagsAtFinish (requestSpan w c) hev ++
        [("http.status_code", TagValue.uint16 (toUint16 c1.response.Status))] := by
      rw [tagsAtFinish_append _ _ _ hfin2, tagsAtFinish_append _ _ _ hpreFinish, hpre, hpost]
    refine ⟨?_, htags, ?_⟩
    · rw [hlog]
      simp [worldAtNext, List.append_assoc]
    · rw [htags]
      exact tagValue_append_last _ _ _

/-- The scenario `GET /orders/42` answered with status 200, and a request with
a query, `GET /orders/42?expand=items`, answered 404 by a handler that sets a
tag of its own: the tags of the finished span, read off the log. -/
theorem JaegerTracer_tags_witness :
    (GlobalTracer tracedWorld = some { id := 1 } ∧
     (statusHandler 200 (worldAtNext { id := 1 } tracedWorld sampleContext)
        (contextAtNext tracedWorld sampleContext)).2.2 = Outcome.returned none ∧
     (taggingHandler (worldAtNext { id := 1 } tracedWorld queryContext)
        (contextAtNext tracedWorld queryContext)).2.2 = Outcome.returned none) ∧
    tagsAtFinish (requestSpan tracedWorld sampleContext)
        (JaegerTracer (statusHandler 200) tracedWorld sampleContext).1.log =
      [("span.kind", TagValue.str "client"), ("http.method", TagValue.str "GET"),
       ("http.url", TagValue.str "/orders/42"),
       ("http.status_code", TagValue.uint16 200)] ∧
    tagsAtFinish (requestSpan tracedWorld queryContext)
        (JaegerTracer taggingHandler tracedWorld queryContext).1.log =
      [("span.kind", TagValue.str "client"), ("http.method", TagValue.str "GET"),
       ("http.url", TagValue.str "/orders/42?expand=items"),
       ("orders.found", TagValue.str "no"),
       ("http.status_code", TagValue.uint16 404)] := by
  refine ⟨⟨rfl, rfl, rfl⟩, ?_, ?_⟩
  · obtain ⟨post, _, _, _, _, _, _, _, _, hreal⟩ :=
      JaegerTracer_tags (statusHandler 200) tracedWorld sampleContext { id := 1 } none rfl rfl
    obtain ⟨hlog, htags, _⟩ := hreal [] (by decide) (by simp)
    rw [hlog]
    exact htags
  · obtain ⟨post, _, _, _, _, _, _, _, _, hreal⟩ :=
      JaegerTracer_tags taggingHandler tracedWorld queryContext { id := 1 } none rfl rfl
    obtain ⟨hlog, htags, _⟩ :=
      hreal [Event.setTag (requestSpan tracedWorld queryContext) "orders.found" (.str "no")]
        (by decide) (by simp)
    rw [hlog]
    exact htags

/-- C5: with a tracer present, the first call of the middleware is one
`StartSpan` on that tracer, before the downstream handler runs: its operation
name is the path of the request URL, its only initial tag is
`span.kind = client`, and its parent comes from the incoming request context.
When the innermost binding of the active span key in that context holds a span
`p`, the single reference is `p.Context` and the new span joins the trace of
`p`; when the context has no such binding there is no reference and the span
opens a trace of its own.  The same in terms of `SpanFromContext`: a span
found gives the reference, none found gives no reference. -/
theorem JaegerTracer_span_start (next : HandlerFunc) (w : World) (c : EchoContext)
    (t : Tracer) (h : GlobalTracer w = some t) :
    ∃ (opts : StartSpanOptions) (post : List Event),
      (JaegerTracer next w c).1.log =
        (next (worldAtNext t w c) (contextAtNext w c)).1.log ++ post ∧
      post.filter Event.isStartSpan = [] ∧
      (worldAtNext t w c).log =
        w.log ++ [Event.startSpan t (requestSpan w c) c.request.URL.Path opts,
          Event.setTag (requestSpan w c) "http.method" (.str c.request.Method),
          Event.setTag (requestSpan w c) "http.url" (.str c.request.URL.RequestURI)] ∧
      opts.Tags = [("span.kind", TagValue.str "client")] ∧
      (∀ p, SpanFromContext c.request.ctx = some p →
        opts.References = [p.Context] ∧
        (requestSpan w c).Context.traceID = p.Context.traceID) ∧
      (SpanFromContext c.request.ctx = none → opts.References = []) ∧
      (∀ (front : Context) (p : Span) (rest : Context),
        c.request.ctx = front ++ (CtxKey.activeSpanKey, CtxValue.span p) :: rest →
        (∀ b ∈ front, b.1 ≠ CtxKey.activeSpanKey) →
        opts.References = [p.Context] ∧
        (requestSpan w c).Context =
          { traceID := p.Context.traceID, spanID := w.nextID }) ∧
      ((∀ b ∈ c.request.ctx, b.1 ≠ CtxKey.activeSpanKey) →
        opts.References = [] ∧
        (requestSpan w c).Context = { traceID := w.nextID, spanID := w.nextID }) := by
  rw [JaegerTracer_present next w c t h]
  rcases hn : next (worldAtNext t w c) (contextAtNext w c) with ⟨w1, c1, out⟩
  refine ⟨clientOptions (parentOf c.request.ctx),
    eventsAfterNext (requestSpan w c) out c1.response.Status, rfl, ?_, rfl, rfl, ?_, ?_,
    ?_, ?_⟩
  · rcases out with ⟨_ | e⟩ | v <;> simp [eventsAfterNext, Event.isStartSpan, List.filter]
  · intro p hp
    simp [clientOptions, parentOf, requestSpan, freshSpan, hp]
  · intro hp
    simp [clientOptions, parentOf, hp]
  · intro front p rest hctx hfront
    have hp : SpanFromContext c.request.ctx = some p := by
      rw [hctx]
      exact SpanFromContext_innermost front p rest hfront
    simp [clientOptions, parentOf, requestSpan, freshSpan, hp]
  · intro hctx
    have hp : SpanFromContext c.request.ctx = none :=
      SpanFromContext_unbound c.request.ctx hctx
    simp [clientOptions, parentOf, requestSpan, freshSpan, hp]

/-- The span start on a request that carries the parent span of trace 3 and
id 7, and on a request that carries none: the calls as they stand in the log. -/
theorem JaegerTracer_span_start_witness :
    GlobalTracer tracedWorld = some { id := 1 } ∧
    (∃ post : List Event,
      (JaegerTracer failingHandler tracedWorld childContext).1.log =
        [Event.startSpan { id := 1 } { Context := { traceID := 3, spanID := 10 } }
           "/orders/42"
           { References := [{ traceID := 3, spanID := 7 }],
             Tags := [("span.kind", TagValue.str "client")] },
         Event.setTag { Context := { traceID := 3, spanID := 10 } } "http.method"
           (.str "GET"),
         Event.setTag { Context := { traceID := 3, spanID := 10 } } "http.url"
           (.str "/orders/42")] ++ post ∧
      post.filter Event.isStartSpan = []) ∧
    (∃ post : List Event,
      (JaegerTracer failingHandler tracedWorld sampleContext).1.log =
        [Event.startSpan { id := 1 } { Context := { traceID := 10, spanID := 10 } }
           "/orders/42"
           { References := [], Tags := [("span.kind", TagValue.str "client")] },
         Event.setTag { Context := { traceID := 10, spanID := 10 } } "http.method"
           (.str "GET"),
         Event.setTag { Context := { traceID := 10, spanID := 10 } } "http.url"
           (.str "/orders/42")] ++ post ∧
      post.filter Event.isStartSpan = []) := by
  refine ⟨rfl, ?_, ?_⟩
  · obtain ⟨opts, post, hlink, hpost, hlog, htags, _, _, hbound, _⟩ :=
      JaegerTracer_span_start failingHandler tracedWorld childContext { id := 1 } rfl
    obtain ⟨hrefs, hsp⟩ := hbound [] parentSpan sampleRequest.ctx rfl (by simp)
    obtain ⟨refs, tags⟩ := opts
    simp only at hrefs htags
    subst hrefs htags
    refine ⟨post, ?_, hpost⟩
    rw [hlink]
    have hw : (failingHandler (worldAtNext { id := 1 } tracedWorld childContext)
        (contextAtNext tracedWorld childContext)).1.log =
        (worldAtNext { id := 1 } tracedWorld childContext).log := rfl
    rw [hw, hlog]
    rfl
  · obtain ⟨opts, post, hlink, hpost, hlog, htags, _, _, _, hfree⟩ :=
      JaegerTracer_span_start failingHandler tracedWorld sampleContext { id := 1 } rfl
    obtain ⟨hrefs, hsp⟩ := hfree (by decide)
    obtain ⟨refs, tags⟩ := opts
    simp only at hrefs htags
    subst hrefs htags
    refine ⟨post, ?_, hpost⟩
    rw [hlink]
    have hw : (failingHandler (worldAtNext { id := 1 } tracedWorld sampleContext)
        (contextAtNext tracedWorld sampleContext)).1.log =
        (worldAtNext { id := 1 } tracedWorld sampleContext).log := rfl
    rw [hw, hlog]
    rfl

/-- C6: with a tracer present, the downstream handler runs on the echo context
`contextAtNext w c`, and what it leaves of the echo context is what the wrapped
handler leaves.  The request it sees has the incoming context with one binding
layered on top: the active span is the span the middleware started just
before, every other key is bound as in the incoming context, and method, URL,
headers, body and the response are those of `c`; the incoming context is the
tail of the new one, untouched. -/
theorem JaegerTracer_request_context (next : HandlerFunc) (w : World) (c : EchoContext)
    (t : Tracer) (h : GlobalTracer w = some t) :
    (JaegerTracer next w c).2.1 = (next (worldAtNext t w c) (contextAtNext w c)).2.1 ∧
    (∃ post : List Event, (JaegerTracer next w c).1.log =
      (next (worldAtNext t w c) (contextAtNext w c)).1.log ++ post) ∧
    (worldAtNext t w c).log.filter Event.isStartSpan =
      w.log.filter Event.isStartSpan ++
        [Event.startSpan t (requestSpan w c) c.request.URL.Path
          (clientOptions (parentOf c.request.ctx))] ∧
    SpanFromContext (contextAtNext w c).request.ctx = some (requestSpan w c) ∧
    (∀ key, key ≠ CtxKey.activeSpanKey →
      (contextAtNext w c).request.ctx.Value key = c.request.ctx.Value key) ∧
    (contextAtNext w c).request.ctx = ContextWithSpan c.request.ctx (requestSpan w c) ∧
    (contextAtNext w c).request.ctx.tail = c.request.ctx ∧
    (contextAtNext w c).request.Method = c.request.Method ∧
    (contextAtNext w c).request.URL = c.request.URL ∧
    (contextAtNext w c).request.Header = c.request.Header ∧
    (contextAtNext w c).request.Body = c.request.Body ∧
    (contextAtNext w c).response = c.response := by
  rw [JaegerTracer_present next w c t h]
  refine ⟨rfl, ⟨_, rfl⟩, ?_, ?_, ?_, rfl, rfl, rfl, rfl, rfl, rfl, rfl⟩
  · simp [worldAtNext, eventsBeforeNext, Event.isStartSpan, List.filter]
  · simp [contextAtNext, SpanFromContext, Context.Value]
  · intro key hkey
    have hne : (CtxKey.activeSpanKey == key) = false := by
      simpa using fun hk => hkey hk.symm
    simp [contextAtNext, Context.Value, List.find?_cons, hne]

/-- The request handed on, for a request that carries a parent span. -/
theorem JaegerTracer_request_context_witness :
    GlobalTracer tracedWorld = some { id := 1 } ∧
    ((JaegerTracer (statusHandler 200) tracedWorld childContext).2.1 =
      (statusHandler 200 (worldAtNext { id := 1 } tracedWorld childContext)
        (contextAtNext tracedWorld childContext)).2.1 ∧
    (∃ post : List Event, (JaegerTracer (statusHandler 200) tracedWorld childContext).1.log =
      (statusHandler 200 (worldAtNext { id := 1 } tracedWorld childContext)
        (contextAtNext tracedWorld childContext)).1.log ++ post) ∧
    (worldAtNext { id := 1 } tracedWorld childContext).log.filter Event.isStartSpan =
      tracedWorld.log.filter Event.isStartSpan ++
        [Event.startSpan { id := 1 } (requestSpan tracedWorld childContext)
          childContext.request.URL.Path (clientOptions (parentOf childContext.request.ctx))] ∧
    SpanFromContext (contextAtNext tracedWorld childContext).request.ctx =
      some (requestSpan tracedWorld childContext) ∧
    (∀ key, key ≠ CtxKey.activeSpanKey →
      (contextAtNext tracedWorld childContext).request.ctx.Value key =
        childContext.request.ctx.Value key) ∧
    (contextAtNext tracedWorld childContext).request.ctx =
      ContextWithSpan childContext.request.ctx (requestSpan tracedWorld childContext) ∧
    (contextAtNext tracedWorld childContext).request.ctx.tail = childContext.request.ctx ∧
    (contextAtNext tracedWorld childContext).request.Method = childContext.request.Method ∧
    (contextAtNext tracedWorld childContext).request.URL = childContext.request.URL ∧
    (contextAtNext tracedWorld childContext).request.Header = childContext.request.Header ∧
    (contextAtNext tracedWorld childContext).request.Body = childContext.request.Body ∧
    (contextAtNext tracedWorld childContext).response = childContext.response) :=
  ⟨rfl, JaegerTracer_request_context (statusHandler 200) tracedWorld childContext
    { id := 1 } rfl⟩

/-! ## The ad-hoc span starters -/

/-- C7, as stated, fails: in a process where no tracer was ever registered the
global tracer is the no-op tracer, not nil, and `StartSpanFromEchoContext`
returns a span. -/
theorem StartSpanFromEchoContext_unregistered :
    initialWorld.isRegistered = false ∧
    tracerRegistered initialWorld = false ∧
    GlobalTracer initialWorld = some NoopTracer ∧
    (StartSpanFromEchoContext initialWorld sampleContext "op").2 =
      some { Context := { traceID := 0, spanID := 0 } } ∧
    (StartSpanFromEchoContext initialWorld sampleContext "op").2 ≠ none := by
  decide

/-- C7, amended: `StartSpanFromEchoContext` returns nil exactly when the global
tracer handle is nil, hence only when no tracer is registered, and then makes
no call.  With a handle `t` that is not nil it returns a span with a fresh id
after exactly these calls: one `StartSpan` on `t` named `operationName` with
the initial tag `span.kind = client`, whose single reference is the trace
context of the span bound in the request context of the carrier when there is
one, and which has no reference when there is none; in that second case only,
one `SetTag` of `parent.context` to the string nil follows.  No `Finish` is
called.  The bound span is the one the innermost binding of the active span
key holds; none is bound when the context has no such binding. -/
theorem StartSpanFromEchoContext_spec (w : World) (c : EchoContext) (operationName : String) :
    ((StartSpanFromEchoContext w c operationName).2 = none ↔ GlobalTracer w = none) ∧
    ((StartSpanFromEchoContext w c operationName).2 = none → tracerRegistered w = false) ∧
    (GlobalTracer w = none → (StartSpanFromEchoContext w c operationName).1 = w) ∧
    (∀ t, GlobalTracer w = some t →
      ∃ sp : Span,
        (StartSpanFromEchoContext w c operationName).2 = some sp ∧
        sp.Context.spanID = w.nextID ∧
        (StartSpanFromEchoContext w c operationName).1.nextID = w.nextID + 1 ∧
        (∀ p, SpanFromContext c.request.ctx = some p →
          (StartSpanFromEchoContext w c operationName).1.log =
            w.log ++ [Event.startSpan t sp operationName
              { References := [p.Context],
                Tags := [("span.kind", TagValue.str "client")] }]) ∧
        (SpanFromContext c.request.ctx = none →
          (StartSpanFromEchoContext w c operationName).1.log =
            w.log ++ [Event.startSpan t sp operationName
              { References := [], Tags := [("span.kind", TagValue.str "client")] },
              Event.setTag sp "parent.context" (.str "nil")]) ∧
        (∀ (front : Context) (p : Span) (rest : Context),
          c.request.ctx = front ++ (CtxKey.activeSpanKey, CtxValue.span p) :: rest →
          (∀ b ∈ front, b.1 ≠ CtxKey.activeSpanKey) →
          sp.Context = { traceID := p.Context.traceID, spanID := w.nextID } ∧
          (StartSpanFromEchoContext w c operationName).1.log =
            w.log ++ [Event.startSpan t sp operationName
              { References := [p.Context],
                Tags := [("span.kind", TagValue.str "client")] }]) ∧
        ((∀ b ∈ c.request.ctx, b.1 ≠ CtxKey.activeSpanKey) →
          sp.Context = { traceID := w.nextID, spanID := w.nextID } ∧
          (StartSpanFromEchoContext w c operationName).1.log =
            w.log ++ [Event.startSpan t sp operationName
              { References := [], Tags := [("span.kind", TagValue.str "client")] },
              Event.setTag sp "parent.context" (.str "nil")])) := by
  unfold StartSpanFromEchoContext
  cases hg : GlobalTracer w with
  | none =>
    have hreg : tracerRegistered w = false := by
      unfold GlobalTracer at hg
      simp [tracerRegistered, hg]
    simp [hreg]
  | some t0 =>
    refine ⟨by simp, by simp, by simp, ?_⟩
    intro t ht
    cases ht
    simp only [EchoContext.Request, Request.Context, parentOf_eq, startSpan_client]
    refine ⟨freshSpan w (parentOf c.request.ctx), rfl, rfl, ?_, ?_, ?_, ?_, ?_⟩
    · cases hp : parentOf c.request.ctx <;> simp [Span.SetTag]
    · intro p hp
      simp [parentOf, hp, clientOptions]
    · intro hp
      simp [parentOf, hp, clientOptions, Span.SetTag]
    · intro front p rest hctx hfront
      have hp : SpanFromContext c.request.ctx = some p := by
        rw [hctx]
        exact SpanFromContext_innermost front p rest hfront
      simp [parentOf, hp, clientOptions, freshSpan]
    · intro hctx
      have hp : SpanFromContext c.request.ctx = none :=
        SpanFromContext_unbound c.request.ctx hctx
      simp [parentOf, hp, clientOptions, Span.SetTag, freshSpan]

/-- The starter on a carrier that holds the span of trace 3 and id 7, a child
of it and no tag, and on a carrier without a span, a root span tagged as
parentless. -/
theorem StartSpanFromEchoContext_spec_witness :
    ((StartSpanFromEchoContext tracedWorld childContext "op").2 =
        some { Context := { traceID := 3, spanID := 10 } } ∧
     (StartSpanFromEchoContext tracedWorld childContext "op").1.log =
      [Event.startSpan { id := 1 } { Context := { traceID := 3, spanID := 10 } } "op"
         { References := [{ traceID := 3, spanID := 7 }],
           Tags := [("span.kind", TagValue.str "client")] }]) ∧
    ((StartSpanFromEchoContext tracedWorld sampleContext "op").2 =
        some { Context := { traceID := 10, spanID := 10 } } ∧
     (StartSpanFromEchoContext tracedWorld sampleContext "op").1.log =
      [Event.startSpan { id := 1 } { Context := { traceID := 10, spanID := 10 } } "op"
         { References := [], Tags := [("span.kind", TagValue.str "client")] },
       Event.setTag { Context := { traceID := 10, spanID := 10 } } "parent.context"
         (.str "nil")]) := by
  constructor
  · obtain ⟨_, _, _, hsome⟩ := StartSpanFromEchoContext_spec tracedWorld childContext "op"
    obtain ⟨sp, hsp, _, _, _, _, hbound, _⟩ := hsome { id := 1 } rfl
    obtain ⟨hctx, hlog⟩ := hbound [] parentSpan sampleRequest.ctx rfl (by simp)
    obtain ⟨spctx⟩ := sp
    simp only at hctx
    subst hctx
    exact ⟨hsp, hlog⟩
  · obtain ⟨_, _, _, hsome⟩ := StartSpanFromEchoContext_spec tracedWorld sampleContext "op"
    obtain ⟨sp, hsp, _, _, _, _, _, hfree⟩ := hsome { id := 1 } rfl
    obtain ⟨hctx, hlog⟩ := hfree (by decide)
    obtain ⟨spctx⟩ := sp
    simp only at hctx
    subst hctx
    exact ⟨hsp, hlog⟩

/-- C8: on a carrier whose request context already holds a span, with a
tracer present, both starters return a span that is not the bound one: each
calls `StartSpan` and returns the new span, a child of the bound one. -/
theorem StartSpanFromEchoContext_starts_child :
    GlobalTracer tracedWorld = some { id := 1 } ∧
    SpanFromContext childContext.request.ctx = some parentSpan ∧
    (StartSpanFromEchoContext tracedWorld childContext "op").2 =
      some { Context := { traceID := 3, spanID := 10 } } ∧
    (StartSpanFromEchoContext tracedWorld childContext "op").2 ≠ some parentSpan ∧
    (StartSpanFromEchoContext tracedWorld childContext "op").1.log =
      [Event.startSpan { id := 1 } { Context := { traceID := 3, spanID := 10 } } "op"
        { References := [parentSpan.Context],
          Tags := [("span.kind", TagValue.str "client")] }] ∧
    (StartSpanFromContext tracedWorld (some parentSpan.Context) "op").2 =
      some { Context := { traceID := 3, spanID := 10 } } ∧
    (StartSpanFromContext tracedWorld (some parentSpan.Context) "op").2 ≠ some parentSpan := by
  decide

/-- C9: for every world, carrier and operation name, `StartSpanFromEchoContext`
gives the same world (the same calls, in the same order, with the same
arguments) and the same result as `StartSpanFromContext` run on the trace
context of the span bound in the request context of the carrier, nil when none
is bound. -/
theorem StartSpanFromEchoContext_eq_StartSpanFromContext (w : World) (c : EchoContext)
    (operationName : String) :
    StartSpanFromEchoContext w c operationName =
      StartSpanFromContext w
        (match SpanFromContext c.request.ctx with
          | some p => some p.Context
          | none => none)
        operationName := by
  unfold StartSpanFromEchoContext StartSpanFromContext
  rfl

/-! ## The constructor -/

/-- C10: for every constructor of the jaeger client, service name, endpoint
and option list, `NewJaegerTracer` calls the constructor on the configuration
with the given service name, the constant sampler with parameter 1, span
logging off and the collector endpoint `endpoint`, or the local default when
`endpoint` is empty, and on the given options.  It returns the tracer, closer
and error of the constructor as they are, logs the error when there is one and
nothing otherwise, and sets the global tracer to the tracer returned, on both
paths. -/
theorem NewJaegerTracer_spec (NewTracer : NewTracerFunc) (w : World)
    (serviceName endpoint : String) (options : List CfgOption) :
    (NewJaegerTracer NewTracer w serviceName endpoint options).2 =
      NewTracer
        { ServiceName := serviceName,
          Sampler := { type := "const", Param := 1 },
          Reporter :=
            { LogSpans := false,
              CollectorEndpoint :=
                if endpoint = "" then "http://localhost:14268/api/traces" else endpoint } }
        options ∧
    GlobalTracer (NewJaegerTracer NewTracer w serviceName endpoint options).1 =
      (NewJaegerTracer NewTracer w serviceName endpoint options).2.1 ∧
    (NewJaegerTracer NewTracer w serviceName endpoint options).1.log =
      w.log ++
        (NewJaegerTracer NewTracer w serviceName endpoint options).2.2.2.toList.map
          (fun e => Event.logError ("create tracer error: " ++ e)) ∧
    (NewJaegerTracer NewTracer w serviceName endpoint options).1.nextID = w.nextID := by
  unfold NewJaegerTracer
  by_cases he : endpoint = ""
  · subst he
    simp only [ne_eq, not_true_eq_false, ↓reduceIte, SamplerTypeConst]
    rcases NewTracer _ options with ⟨tr, cl, _ | e⟩ <;>
      simp [GlobalTracer, SetGlobalTracer, logError]
  · simp only [ne_eq, he, not_false_eq_true, ↓reduceIte, SamplerTypeConst]
    rcases NewTracer _ options with ⟨tr, cl, _ | e⟩ <;>
      simp [GlobalTracer, SetGlobalTracer, logError]

/-- A failed construction: the error is returned and logged, the global tracer is nil. -/
theorem NewJaegerTracer_spec_witness :
    GlobalTracer (NewJaegerTracer failingConstructor tracedWorld "orders" "" []).1 = none ∧
    (NewJaegerTracer failingConstructor tracedWorld "orders" "" []).2 =
      (none, none, some "no sender") ∧
    (NewJaegerTracer failingConstructor tracedWorld "orders" "" []).1.log =
      [Event.logError "create tracer error: no sender"] := by
  obtain ⟨hres, hglobal, hlog, _⟩ :=
    NewJaegerTracer_spec failingConstructor tracedWorld "orders" "" []
  refine ⟨?_, ?_, ?_⟩
  · rw [hglobal, hres]
    rfl
  · rw [hres]
    rfl
  · rw [hlog, hres]
    rfl

end JaegerEcho
